import Mathlib

/-!
Verification development for scripts/kokoro_worker.py, the persistent
Kokoro TTS worker speaking newline-delimited JSON over stdin/stdout.

The embedding is shallow.  Python floats are modelled as exact rationals,
byte strings as lists of naturals below 256, and the two external
collaborators (the kokoro KPipeline engine and the json.loads parser)
as components of an oracle environment.  The worker state carries the
pipelines cache together with ghost instrumentation (construction
attempt and success counters, a log of engine invocations) that models
the call-counting stub described by the specification; the source keeps
the same information implicitly in the lifetime of the process.
-/

namespace Kokoro

/-- JSON values as produced by json.loads and consumed by json.dumps.
Numbers are modelled as rationals; the Python int/float distinction is
not tracked (every number appearing in a worker response is integral). -/
inductive Json where
  | null : Json
  | bool (b : Bool) : Json
  | num (q : ℚ) : Json
  | str (s : String) : Json
  | arr (elems : List Json) : Json
  | obj (fields : List (String × Json)) : Json

/-- Whether a JSON value is an object. -/
def Json.isObj : Json → Bool
  | .obj _ => true
  | _ => false

/-- Python truthiness of a decoded JSON value, as used by the
idiom req.get(key) or default in the worker. -/
def truthy : Json → Bool
  | .null => false
  | .bool b => b
  | .num q => if q = 0 then false else true
  | .str s => if s = "" then false else true
  | .arr xs => !xs.isEmpty
  | .obj kvs => !kvs.isEmpty

/-- Lookup in an association list where the last binding wins, matching
how json.loads builds a dict from duplicate keys. -/
def lookupLast (kvs : List (String × Json)) (k : String) : Option Json :=
  match kvs with
  | [] => none
  | (k₁, v) :: rest =>
    match lookupLast rest k with
    | some w => some w
    | none => if k₁ = k then some v else none

/-- Python type name of a decoded JSON value, used in diagnostic
messages for attribute and conversion errors. -/
def typeName : Json → String
  | .null => "NoneType"
  | .bool _ => "bool"
  | .num q => if q.den = 1 then "int" else "float"
  | .str _ => "str"
  | .arr _ => "list"
  | .obj _ => "dict"

/-- ASCII whitespace stripped by str.strip.  The further Unicode space
characters Python also strips do not occur in the protocol. -/
def isPySpace (c : Char) : Bool :=
  c = ' ' || c = '\t' || c = '\n' || c = '\r' || c.toNat = 11 || c.toNat = 12

/-- Model of str.strip with no argument: drop leading and trailing
whitespace. -/
def pyStrip (s : String) : String :=
  ⟨((s.data.dropWhile isPySpace).reverse.dropWhile isPySpace).reverse⟩

/-- Decimal digit as a character. -/
def digitChar (d : Nat) : Char := Char.ofNat (48 + d)

/-- Decimal digits of a natural number, most significant first, with a
fuel argument bounding the number of digits. -/
def natCharsAux : Nat → Nat → List Char
  | 0, _ => []
  | fuel + 1, n => if n = 0 then [] else natCharsAux fuel (n / 10) ++ [digitChar (n % 10)]

/-- Decimal rendering of a natural number.  Forty digits of fuel cover
every magnitude reachable through the worker protocol. -/
def natChars (n : Nat) : List Char :=
  if n = 0 then ['0'] else natCharsAux 40 n

/-- Decimal rendering of an integer. -/
def intChars (i : ℤ) : List Char :=
  if i < 0 then '-' :: natChars i.natAbs else natChars i.natAbs

/-- Rendering of a JSON number.  Integral values render as Python
integers do; the worker never serializes a non-integral number, so the
fractional fallback is only a total-function completion. -/
def numChars (q : ℚ) : List Char :=
  if q.den = 1 then intChars q.num else intChars q.num ++ '/' :: natChars q.den

/-- Model of the Python str() coercion on decoded JSON values, as
applied to the id, text, voice and lang_code fields.  Containers render
in a simplified repr form; the scalar cases are the ones the worker
protocol exercises. -/
def pyStr : Json → String
  | .null => "None"
  | .bool true => "True"
  | .bool false => "False"
  | .num q => ⟨numChars q⟩
  | .str s => s
  | .arr _ => "[...]"
  | .obj _ => "{...}"

/-- Lowercase hexadecimal digit. -/
def hexDigit (n : Nat) : Char :=
  if n < 10 then Char.ofNat (48 + n) else Char.ofNat (87 + n)

/-- A \uXXXX escape as emitted by json.dumps with ensure_ascii. -/
def uEsc (n : Nat) : List Char :=
  ['\\', 'u', hexDigit (n / 4096 % 16), hexDigit (n / 256 % 16),
   hexDigit (n / 16 % 16), hexDigit (n % 16)]

/-- Escape of one character inside a JSON string literal, following
json.dumps with its default ensure_ascii=True: the printable ASCII
range stays literal, everything else is escaped. -/
def escChar (c : Char) : List Char :=
  if c = '"' then ['\\', '"']
  else if c = '\\' then ['\\', '\\']
  else if c = '\n' then ['\\', 'n']
  else if c = '\t' then ['\\', 't']
  else if c = '\r' then ['\\', 'r']
  else if c.toNat = 8 then ['\\', 'b']
  else if c.toNat = 12 then ['\\', 'f']
  else if 32 ≤ c.toNat ∧ c.toNat ≤ 126 then [c]
  else if c.toNat < 65536 then uEsc c.toNat
  else uEsc (55296 + (c.toNat - 65536) / 1024) ++ uEsc (56320 + (c.toNat - 65536) % 1024)

/-- JSON string literal serialization: quotes around escaped content. -/
def strChars (s : String) : List Char :=
  '"' :: s.data.foldr (fun c acc => escChar c ++ acc) ['"']

mutual

/-- Serialization of a JSON value, following json.dumps with its
default separators. -/
def dumpChars : Json → List Char
  | Json.null => ['n', 'u', 'l', 'l']
  | Json.bool true => ['t', 'r', 'u', 'e']
  | Json.bool false => ['f', 'a', 'l', 's', 'e']
  | Json.num q => numChars q
  | Json.str s => strChars s
  | Json.arr xs => '[' :: (dumpElems xs ++ [']'])
  | Json.obj kvs => Char.ofNat 123 :: (dumpMembers kvs ++ [Char.ofNat 125])

/-- Array elements joined by a comma and a space. -/
def dumpElems : List Json → List Char
  | [] => []
  | [x] => dumpChars x
  | x :: y :: xs => dumpChars x ++ ',' :: ' ' :: dumpElems (y :: xs)

/-- Object members, each a serialized key, a colon and a space, and the
serialized value, joined by a comma and a space. -/
def dumpMembers : List (String × Json) → List Char
  | [] => []
  | [(k, v)] => strChars k ++ ':' :: ' ' :: dumpChars v
  | (k, v) :: m :: kvs =>
    strChars k ++ ':' :: ' ' :: dumpChars v ++ ',' :: ' ' :: dumpMembers (m :: kvs)

end

/-- Model of json.dumps. -/
def Json.dumps (v : Json) : String := ⟨dumpChars v⟩

/-- Whether a character is a decimal digit. -/
def isDigit (c : Char) : Bool := 48 ≤ c.toNat && c.toNat ≤ 57

/-- Value of a digit string, most significant first. -/
def digitsToNat (cs : List Char) : Nat :=
  cs.foldl (fun a c => 10 * a + (c.toNat - 48)) 0

/-- Model of the Python float() conversion on a string: optional sign,
then digits with an optional decimal point, the whole stripped of
surrounding whitespace.  Exponent forms, underscores and the inf and
nan spellings are not exercised by the worker protocol and are not
modelled. -/
def parsePyFloat (s : String) : Option ℚ :=
  let cs := (pyStrip s).data
  let signAndRest : ℚ × List Char :=
    match cs with
    | '-' :: r => (-1, r)
    | '+' :: r => (1, r)
    | r => (1, r)
  let sign := signAndRest.1
  let body := signAndRest.2
  let ipart := body.takeWhile isDigit
  let rest := body.dropWhile isDigit
  match rest with
  | [] => if ipart.isEmpty then none else some (sign * digitsToNat ipart)
  | '.' :: frac =>
    if frac.all isDigit && !(ipart.isEmpty && frac.isEmpty) then
      some (sign * ((digitsToNat ipart : ℚ) + (digitsToNat frac : ℚ) / 10 ^ frac.length))
    else none
  | _ => none

/-- Model of the Python float() conversion on a decoded JSON value, as
applied to the speed field on line 103 of the worker. -/
def pyFloat : Json → Except String ℚ
  | .num q => .ok q
  | .bool b => .ok (if b then 1 else 0)
  | .str s =>
    match parsePyFloat s with
    | some q => .ok q
    | none => .error ("could not convert string to float: " ++ s)
  | j => .error ("float() argument must be a string or a real number, not " ++ typeName j)

/-- Model of the idiom value or default on an optional field: a missing
or falsy value is replaced by the default. -/
def orDefault (v : Option Json) (d : Json) : Json :=
  match v with
  | none => d
  | some x => if truthy x then x else d

/-- Model of req.get(key): field lookup on a dict, raising an
AttributeError on any other decoded value (lines 99 to 103). -/
def jsonGet : Json → String → Except String (Option Json)
  | .obj kvs, k => .ok (lookupLast kvs k)
  | j, _ => .error ("the " ++ typeName j ++ " object has no attribute get")

/-- Extraction of the request id, line 99: str(req.get("id") or ""). -/
def extractId (req : Json) : Except String String :=
  (jsonGet req "id").map fun v => pyStr (orDefault v (Json.str ""))

/-- Extraction of the request text, line 100:
str(req.get("text") or "").strip(). -/
def extractText (req : Json) : Except String String :=
  (jsonGet req "text").map fun v => pyStrip (pyStr (orDefault v (Json.str "")))

/-- Extraction of the voice, line 101:
str(req.get("voice") or "af_heart").strip() or "af_heart". -/
def extractVoice (req : Json) : Except String String :=
  (jsonGet req "voice").map fun v =>
    let s := pyStrip (pyStr (orDefault v (Json.str "af_heart")))
    if s = "" then "af_heart" else s

/-- Extraction of the language code, line 102:
str(req.get("lang_code") or "a").strip() or "a". -/
def extractLang (req : Json) : Except String String :=
  (jsonGet req "lang_code").map fun v =>
    let s := pyStrip (pyStr (orDefault v (Json.str "a")))
    if s = "" then "a" else s

/-- The speed clamp of lines 106 to 109: values below 0.7 are raised to
0.7, then values above 1.2 are lowered to 1.2. -/
def pyClampSpeed (s : ℚ) : ℚ :=
  let s₁ := if s < 7/10 then 7/10 else s
  if s₁ > 6/5 then 6/5 else s₁

/-- Extraction and clamping of the speed, lines 103 to 109:
float(req.get("speed") or 1.0) followed by the clamp. -/
def extractSpeed (req : Json) : Except String ℚ :=
  (do
    let v ← jsonGet req "speed"
    pyFloat (orDefault v (Json.num 1))).map pyClampSpeed

/-- Normalization of the non-id request fields in source order, lines
100 to 109.  The id is extracted separately beforehand so that a later
failure still carries it. -/
def normalizeRest (req : Json) : Except String (String × String × String × ℚ) := do
  let text ← extractText req
  let voice ← extractVoice req
  let lc ← extractLang req
  let speed ← extractSpeed req
  return (text, voice, lc, speed)

/-- Model of np.clip(a, -1.0, 1.0) on one sample, line 43. -/
def clampQ (x : ℚ) : ℚ :=
  if x < -1 then -1 else if 1 < x then 1 else x

/-- Truncation toward zero, the conversion astype(np.int16) performs on
each scaled sample on line 44. -/
def truncQ (q : ℚ) : ℤ :=
  if q < 0 then -Int.floor (-q) else Int.floor q

/-- One sample of the PCM16 conversion of line 44: clamp, scale by
32767, truncate toward zero. -/
def pcm16 (x : ℚ) : ℤ := truncQ (clampQ x * 32767)

/-- Little-endian two-byte two-complement encoding of a 16-bit sample,
as laid out by ndarray.tobytes on line 44. -/
def int16le (i : ℤ) : List Nat :=
  [(Int.emod i 65536).toNat % 256, (Int.emod i 65536).toNat / 256]

/-- Little-endian 16-bit field of the container header. -/
def u16le (n : Nat) : List Nat := [n % 256, n / 256 % 256]

/-- Little-endian 32-bit field of the container header. -/
def u32le (n : Nat) : List Nat :=
  [n % 256, n / 256 % 256, n / 65536 % 256, n / 16777216 % 256]

/-- The 44-byte canonical WAV header written by the wave module for a
mono PCM16 stream: the RIFF magic 82 73 70 70, the riff size, the WAVE
magic 87 65 86 69, the fmt chunk magic 102 109 116 32 with size 16,
format tag 1, one channel, the frame rate, the byte rate, block align
2, 16 bits per sample, the data magic 100 97 116 97 and the data
size. -/
def wavHeader (srN dataLen : Nat) : List Nat :=
  [82, 73, 70, 70] ++ u32le (36 + dataLen) ++ [87, 65, 86, 69] ++
  [102, 109, 116, 32] ++ u32le 16 ++ u16le 1 ++ u16le 1 ++ u32le srN ++
  u32le (srN * 2) ++ u16le 2 ++ u16le 16 ++ [100, 97, 116, 97] ++ u32le dataLen

/-- Model of wav_bytes_from_float32_mono, lines 28 to 52: substitute
24000 for a non-positive sample rate, convert the samples to PCM16
bytes with an empty result for an empty buffer, and frame the data in
the canonical WAV container. -/
def wav_bytes (audio : List ℚ) (sample_rate : ℤ) : List Nat :=
  let sr : ℤ := if sample_rate ≤ 0 then 24000 else sample_rate
  let pcm : List Nat :=
    if audio.isEmpty then [] else (audio.map fun x => int16le (pcm16 x)).flatten
  wavHeader sr.toNat pcm.length ++ pcm

/-- Slice of a byte list: len bytes starting at offset i. -/
def bytesAt (bs : List Nat) (i len : Nat) : List Nat := (bs.drop i).take len

/-- Little-endian value of a byte list. -/
def leVal (bs : List Nat) : Nat := bs.foldr (fun b acc => b + 256 * acc) 0

/-- The audio payload of an encoded container: everything after the
44-byte header. -/
def wavData (bs : List Nat) : List Nat := bs.drop 44

/-- One character of the base64 alphabet. -/
def b64char (n : Nat) : Char :=
  if n < 26 then Char.ofNat (65 + n)
  else if n < 52 then Char.ofNat (97 + (n - 26))
  else if n < 62 then Char.ofNat (48 + (n - 52))
  else if n = 62 then '+'
  else '/'

/-- Standard base64 of a byte list, three bytes to four characters with
equals-sign padding, as base64.b64encode produces on line 138. -/
def b64chunks : List Nat → List Char
  | [] => []
  | [b₁] => [b64char (b₁ / 4), b64char (b₁ % 4 * 16), '=', '=']
  | [b₁, b₂] => [b64char (b₁ / 4), b64char (b₁ % 4 * 16 + b₂ / 16),
                 b64char (b₂ % 16 * 4), '=']
  | b₁ :: b₂ :: b₃ :: rest =>
    b64char (b₁ / 4) :: b64char (b₁ % 4 * 16 + b₂ / 16) ::
    b64char (b₂ % 16 * 4 + b₃ / 64) :: b64char (b₃ % 64) :: b64chunks rest

/-- Base64 encoding as an ASCII string. -/
def b64encode (bytes : List Nat) : String := ⟨b64chunks bytes⟩

/-- A Python exception from the engine constructor, distinguishing the
TypeError that triggers the one-argument fallback (line 87) from every
other failure. -/
inductive PyErr where
  | typeError (msg : String) : PyErr
  | other (msg : String) : PyErr

/-- Oracle environment for the external collaborators: the json.loads
parser, the two KPipeline construction forms of lines 86 and 88 (the
second argument is the count of construction attempts made so far,
letting a construction fail now and succeed on a retry), and the engine
invocation of line 120, yielding the audio chunks of the generator or
raising. -/
structure Env where
  parse : String → Except String Json
  construct2 : String → Nat → Except PyErr Unit
  construct1 : String → Nat → Except String Unit
  run : Nat → String → String → ℚ → Except String (List (Option (List ℚ)))

/-- Worker state: the pipelines cache of line 78 mapping a normalized
language code to the engine instance bound to it, together with ghost
instrumentation: constructed counts successful engine constructions and
names the next instance, attempts counts entries into the construction
block, and runs logs every engine invocation with its arguments. -/
structure WorkerState where
  pipelines : List (String × Nat)
  constructed : Nat
  attempts : Nat
  runs : List (Nat × String × String × ℚ)
deriving DecidableEq

/-- The state at process start: an empty cache and no activity. -/
def initState : WorkerState := ⟨[], 0, 0, []⟩

/-- The language code normalization of line 81:
(lang_code or "a").strip() or "a". -/
def normLang (lc : String) : String :=
  let s := pyStrip (if lc = "" then "a" else lc)
  if s = "" then "a" else s

/-- Model of get_pipeline, lines 80 to 90: normalize the code, return
the cached instance if present, otherwise construct one (preferred
two-argument form first, one-argument fallback on a TypeError) and
cache it under the code before returning; a constructor failure
propagates and caches nothing. -/
def get_pipeline (env : Env) (st : WorkerState) (lc : String) :
    Except (String × WorkerState) (Nat × WorkerState) :=
  let code := normLang lc
  match List.lookup code st.pipelines with
  | some p => .ok (p, st)
  | none =>
    let built : Except String Unit :=
      match env.construct2 code st.attempts with
      | .ok _ => .ok ()
      | .error (PyErr.typeError _) => env.construct1 code st.attempts
      | .error (PyErr.other m) => .error m
    match built with
    | .ok _ => .ok (st.constructed,
        { st with attempts := st.attempts + 1,
                  constructed := st.constructed + 1,
                  pipelines := st.pipelines ++ [(code, st.constructed)] })
    | .error m => .error (m, { st with attempts := st.attempts + 1 })

/-- The success response dict of lines 112 and 133 to 139, in source
field order. -/
def successObj (rid audioB64 : String) : Json :=
  Json.obj [("id", Json.str rid), ("ok", Json.bool true),
            ("format", Json.str "wav_24000"), ("sample_rate", Json.num 24000),
            ("audio_base64", Json.str audioB64)]

/-- The failure response dict of line 143, in source field order. -/
def failObj (rid msg : String) : Json :=
  Json.obj [("id", Json.str rid), ("ok", Json.bool false), ("error", Json.str msg)]

/-- Concatenation of the generator chunks, lines 121 to 129: chunks
carrying no audio are skipped, the rest are joined in yield order, and
an empty part list yields the zero-length buffer. -/
def concatChunks (chunks : List (Option (List ℚ))) : List ℚ :=
  let parts := chunks.filterMap id
  if parts.isEmpty then [] else parts.flatten

/-- Lines 117 to 139 for a non-empty text: acquire the pipeline for the
language code, invoke the engine (the invocation is logged in the ghost
run log), and on success encode the concatenated buffer as a WAV at
24000 Hz and answer with its base64.  Any failure carries the request
id and the state at the point of the raise. -/
def synthesize (env : Env) (st : WorkerState) (rid text voice lc : String)
    (speed : ℚ) : Except (String × String × WorkerState) (Json × WorkerState) :=
  match get_pipeline env st lc with
  | .error (m, st₁) => .error (rid, m, st₁)
  | .ok (pid, st₁) =>
    let st₂ := { st₁ with runs := st₁.runs ++ [(pid, text, voice, speed)] }
    match env.run pid text voice speed with
    | .error m => .error (rid, m, st₂)
    | .ok chunks =>
      .ok (successObj rid (b64encode (wav_bytes (concatChunks chunks) 24000)), st₂)

/-- Lines 99 to 139 on a decoded request value: extract the id first,
normalize the remaining fields, short-circuit an empty text to the
empty success response, and otherwise synthesize. -/
def handleParsed (env : Env) (st : WorkerState) (req : Json) :
    Except (String × String × WorkerState) (Json × WorkerState) :=
  match jsonGet req "id" with
  | .error m => .error ("", m, st)
  | .ok idv =>
    let rid := pyStr (orDefault idv (Json.str ""))
    match normalizeRest req with
    | .error m => .error (rid, m, st)
    | .ok (text, voice, lc, speed) =>
      if text = "" then .ok (successObj rid "", st)
      else synthesize env st rid text voice lc speed

/-- The try block of lines 97 to 139 on one stripped, non-blank line:
parse it, then handle the decoded request.  A parse failure carries the
empty id and leaves the state untouched. -/
def handleLine (env : Env) (st : WorkerState) (line : String) :
    Except (String × String × WorkerState) (Json × WorkerState) :=
  match env.parse line with
  | .error m => .error ("", m, st)
  | .ok req => handleParsed env st req

/-- The best-available id of a line, as the loop computes it on lines
96 to 99: empty until the id is extracted from a successfully parsed
request. -/
def ridOf (env : Env) (line : String) : String :=
  match env.parse line with
  | .error _ => ""
  | .ok req =>
    match jsonGet req "id" with
    | .error _ => ""
    | .ok idv => pyStr (orDefault idv (Json.str ""))

/-- One iteration of the loop, lines 92 to 146: strip the line, skip it
if blank, otherwise emit exactly one serialized response terminated by
a newline, a failure response when the handling raised. -/
def processLine (env : Env) (st : WorkerState) (raw : String) :
    Option String × WorkerState :=
  let line := pyStrip raw
  if line = "" then (none, st)
  else
    match handleLine env st line with
    | .ok (resp, st₁) => (some (Json.dumps resp ++ "\n"), st₁)
    | .error (rid, m, st₁) => (some (Json.dumps (failObj rid m) ++ "\n"), st₁)

/-- The whole protocol loop over a list of input lines, returning the
emitted response lines in order and the final state. -/
def runWorker (env : Env) : WorkerState → List String → List String × WorkerState
  | st, [] => ([], st)
  | st, l :: ls =>
    match processLine env st l with
    | (none, st₁) => runWorker env st₁ ls
    | (some out, st₁) =>
      let rest := runWorker env st₁ ls
      (out :: rest.1, rest.2)

/-- State reached by a handling step, whether it raised or returned. -/
def hlState : Except (String × String × WorkerState) (Json × WorkerState) → WorkerState
  | .error (_, _, s) => s
  | .ok (_, s) => s

/-- State reached by a pipeline acquisition, whether it raised or
returned. -/
def pipeState : Except (String × WorkerState) (Nat × WorkerState) → WorkerState
  | .error (_, s) => s
  | .ok (_, s) => s

/-- Modelled from the spec: the quantization mapping round(sample * 32767)
with ties resolved by truncation toward zero, the rule section 4.4 of
the specification states for the audio encoder.  This definition follows
the words of the spec and exists to be compared with pcm16, which is
translated from the source. -/
def specRoundTiesToZero (q : ℚ) : ℤ :=
  if q < 0 then Int.floor (q + 1/2) else Int.ceil (q - 1/2)

/-- Modelled from the spec: one sample of the encoder mapping as section
4.4 of the specification describes it: clamp, then round with ties
toward zero. -/
def specPcm16 (x : ℚ) : ℤ := specRoundTiesToZero (clampQ x * 32767)

/-- A trivially succeeding oracle used to instantiate theorems: every
line parses to the empty object, construction succeeds, the engine
yields no chunks. -/
def envEmptyOk : Env :=
  { parse := fun _ => .ok (Json.obj [])
    construct2 := fun _ _ => .ok ()
    construct1 := fun _ _ => .ok ()
    run := fun _ _ _ _ => .ok [] }

/-- An oracle whose parser always raises, as json.loads does on a line
that is not valid JSON. -/
def envParseFail : Env :=
  { envEmptyOk with parse := fun _ => .error "Expecting value: line 1 column 1 (char 0)" }

/-- An oracle parsing every line to a request with an empty text and a
truthy speed string float() cannot convert. -/
def envTextEmptyBadSpeed : Env :=
  { envEmptyOk with
    parse := fun _ => .ok (Json.obj [("text", Json.str ""), ("speed", Json.str "abc")]) }

/-- An oracle parsing every line to a request with text and a speed of
zero, a falsy number. -/
def envSpeedZero : Env :=
  { envEmptyOk with
    parse := fun _ => .ok (Json.obj [("text", Json.str "hi"), ("speed", Json.num 0)]) }

/-- An oracle parsing every line to a request with text and an
out-of-range speed of five. -/
def envSpeedFive : Env :=
  { envEmptyOk with
    parse := fun _ => .ok (Json.obj [("text", Json.str "hi"), ("speed", Json.num 5)]) }

/-- An oracle parsing every line to a request carrying the id 7 and an
empty text. -/
def envIdSeven : Env :=
  { envEmptyOk with
    parse := fun _ => .ok (Json.obj [("id", Json.str "7"), ("text", Json.str "")]) }

/-- An oracle whose engine constructor rejects the two-argument form
with a TypeError and fails the one-argument fallback on the first
attempt, then succeeds on later attempts. -/
def envCtorFlaky : Env :=
  { envEmptyOk with
    construct2 := fun _ n =>
      if n = 0 then .error (.typeError "got an unexpected keyword argument repo_id")
      else .ok ()
    construct1 := fun _ n =>
      if n = 0 then .error "no model weights available" else .ok () }

/-! ### The serializer never emits a raw newline -/

theorem noNL_append {a b : List Char} (ha : '\n' ∉ a) (hb : '\n' ∉ b) :
    '\n' ∉ a ++ b := by
  intro h
  rcases List.mem_append.mp h with h | h
  · exact ha h
  · exact hb h

theorem noNL_cons {c : Char} {l : List Char} (hc : c ≠ '\n') (hl : '\n' ∉ l) :
    '\n' ∉ c :: l := by
  intro h
  rcases List.mem_cons.mp h with h | h
  · exact hc h.symm
  · exact hl h

theorem digitChar_ne_newline {d : Nat} (h : d < 10) : digitChar d ≠ '\n' := by
  interval_cases d <;> decide

theorem natCharsAux_no_newline (fuel : Nat) : ∀ n, '\n' ∉ natCharsAux fuel n := by
  induction fuel with
  | zero => intro n; simp [natCharsAux]
  | succ f ih =>
    intro n
    simp only [natCharsAux]
    split
    · simp
    · refine noNL_append (ih _) ?_
      intro h
      rcases List.mem_singleton.mp h with h
      exact digitChar_ne_newline (Nat.mod_lt _ (by norm_num)) h.symm

theorem natChars_no_newline (n : Nat) : '\n' ∉ natChars n := by
  unfold natChars
  split
  · decide
  · exact natCharsAux_no_newline _ _

theorem intChars_no_newline (i : ℤ) : '\n' ∉ intChars i := by
  unfold intChars
  split
  · exact noNL_cons (by decide) (natChars_no_newline _)
  · exact natChars_no_newline _

theorem numChars_no_newline (q : ℚ) : '\n' ∉ numChars q := by
  unfold numChars
  split
  · exact intChars_no_newline _
  · exact noNL_append (intChars_no_newline _)
      (noNL_cons (by decide) (natChars_no_newline _))

theorem hexDigit_ne_newline {n : Nat} (h : n < 16) : hexDigit n ≠ '\n' := by
  interval_cases n <;> decide

theorem uEsc_no_newline (m : Nat) : '\n' ∉ uEsc m := by
  unfold uEsc
  refine noNL_cons (by decide) (noNL_cons (by decide) ?_)
  refine noNL_cons (hexDigit_ne_newline (Nat.mod_lt _ (by norm_num))) ?_
  refine noNL_cons (hexDigit_ne_newline (Nat.mod_lt _ (by norm_num))) ?_
  refine noNL_cons (hexDigit_ne_newline (Nat.mod_lt _ (by norm_num))) ?_
  refine noNL_cons (hexDigit_ne_newline (Nat.mod_lt _ (by norm_num))) ?_
  simp

theorem escChar_no_newline (c : Char) : '\n' ∉ escChar c := by
  unfold escChar
  split_ifs with h1 h2 h3 h4 h5 h6 h7 h8 h9
  · decide
  · decide
  · decide
  · decide
  · decide
  · decide
  · decide
  · intro h
    rcases List.mem_singleton.mp h with h
    have h10 : c.toNat = 10 := by rw [← h]; decide
    have h32 := h8.1
    omega
  · exact uEsc_no_newline _
  · exact noNL_append (uEsc_no_newline _) (uEsc_no_newline _)

theorem foldrEsc_no_newline (l : List Char) :
    '\n' ∉ l.foldr (fun c acc => escChar c ++ acc) ['"'] := by
  induction l with
  | nil => decide
  | cons c cs ih => exact noNL_append (escChar_no_newline c) ih

theorem strChars_no_newline (s : String) : '\n' ∉ strChars s := by
  unfold strChars
  exact noNL_cons (by decide) (foldrEsc_no_newline _)

theorem dumps_success_no_newline (rid s : String) :
    '\n' ∉ dumpChars (successObj rid s) := by
  simp only [successObj, dumpChars, dumpMembers]
  repeat
    first
    | exact strChars_no_newline _
    | exact numChars_no_newline _
    | refine noNL_append ?_ ?_
    | refine noNL_cons (by decide) ?_
    | decide

theorem dumps_fail_no_newline (rid m : String) :
    '\n' ∉ dumpChars (failObj rid m) := by
  simp only [failObj, dumpChars, dumpMembers]
  repeat
    first
    | exact strChars_no_newline _
    | exact numChars_no_newline _
    | refine noNL_append ?_ ?_
    | refine noNL_cons (by decide) ?_
    | decide

/-! ### Shape of one handling step -/

/-- Every handling step either raises, carrying the best-available id,
or returns a success response carrying that id. -/
theorem handleLine_id (env : Env) (st : WorkerState) (l : String) :
    (∃ m st₁, handleLine env st l = .error (ridOf env l, m, st₁)) ∨
    (∃ s st₁, handleLine env st l = .ok (successObj (ridOf env l) s, st₁)) := by
  cases hp : env.parse l with
  | error m =>
    refine Or.inl ⟨m, st, ?_⟩
    simp [handleLine, ridOf, hp]
  | ok req =>
    cases hid : jsonGet req "id" with
    | error m =>
      refine Or.inl ⟨m, st, ?_⟩
      simp [handleLine, ridOf, handleParsed, hp, hid]
    | ok idv =>
      have hl : handleLine env st l = handleParsed env st req := by
        simp [handleLine, hp]
      have hr : ridOf env l = pyStr (orDefault idv (Json.str "")) := by
        simp [ridOf, hp, hid]
      rw [hl, hr]
      cases hn : normalizeRest req with
      | error m =>
        refine Or.inl ⟨m, st, ?_⟩
        simp [handleParsed, hid, hn]
      | ok tup =>
        obtain ⟨text, voice, lc, speed⟩ := tup
        have hpk : handleParsed env st req =
            (if text = "" then
              .ok (successObj (pyStr (orDefault idv (Json.str ""))) "", st)
             else synthesize env st (pyStr (orDefault idv (Json.str ""))) text voice lc speed) := by
          simp [handleParsed, hid, hn]
        rw [hpk]
        by_cases ht : text = ""
        · rw [if_pos ht]
          exact Or.inr ⟨"", st, rfl⟩
        · rw [if_neg ht]
          cases hg : get_pipeline env st lc with
          | error e =>
            obtain ⟨m, st₁⟩ := e
            refine Or.inl ⟨m, st₁, ?_⟩
            simp [synthesize, hg]
          | ok pr =>
            obtain ⟨pid, st₁⟩ := pr
            cases hrun : env.run pid text voice speed with
            | error m =>
              refine Or.inl ⟨m, { st₁ with runs := st₁.runs ++ [(pid, text, voice, speed)] }, ?_⟩
              simp [synthesize, hg, hrun]
            | ok chunks =>
              refine Or.inr ⟨b64encode (wav_bytes (concatChunks chunks) 24000),
                { st₁ with runs := st₁.runs ++ [(pid, text, voice, speed)] }, ?_⟩
              simp [synthesize, hg, hrun]

/-- C1: a blank or whitespace-only input line produces no response at
all, and every other input line produces exactly one response line that
is a single well-formed JSON object, serialized without any interior
newline and terminated by one appended newline. -/
theorem C1_single_json_response_per_line (env : Env) (st : WorkerState) (raw : String) :
    (pyStrip raw = "" → processLine env st raw = (none, st) ∧
       ∀ rest, runWorker env st (raw :: rest) = runWorker env st rest) ∧
    (pyStrip raw ≠ "" → ∃ v st₁, v.isObj = true ∧
       processLine env st raw = (some (Json.dumps v ++ "\n"), st₁) ∧
       '\n' ∉ (Json.dumps v).data ∧
       ∀ rest, (runWorker env st (raw :: rest)).1 =
         (Json.dumps v ++ "\n") :: (runWorker env st₁ rest).1) := by
  constructor
  · intro hb
    have hpl : processLine env st raw = (none, st) := by
      simp [processLine, hb]
    exact ⟨hpl, fun rest => by simp [runWorker, hpl]⟩
  · intro hb
    rcases handleLine_id env st (pyStrip raw) with ⟨m, st₁, he⟩ | ⟨s, st₁, he⟩
    · refine ⟨failObj (ridOf env (pyStrip raw)) m, st₁, rfl, ?_, dumps_fail_no_newline _ _, ?_⟩
      · simp [processLine, hb, he]
      · intro rest
        simp [runWorker, processLine, hb, he]
    · refine ⟨successObj (ridOf env (pyStrip raw)) s, st₁, rfl, ?_, dumps_success_no_newline _ _, ?_⟩
      · simp [processLine, hb, he]
      · intro rest
        simp [runWorker, processLine, hb, he]

/-- Witness for C1 at a whitespace-only line and at a non-blank line. -/
theorem C1_single_json_response_per_line_witness :
    (processLine envEmptyOk initState "  " = (none, initState) ∧
       ∀ rest, runWorker envEmptyOk initState ("  " :: rest) =
         runWorker envEmptyOk initState rest) ∧
    (∃ v st₁, v.isObj = true ∧
       processLine envEmptyOk initState "x" = (some (Json.dumps v ++ "\n"), st₁) ∧
       '\n' ∉ (Json.dumps v).data ∧
       ∀ rest, (runWorker envEmptyOk initState ("x" :: rest)).1 =
         (Json.dumps v ++ "\n") :: (runWorker envEmptyOk st₁ rest).1) :=
  ⟨(C1_single_json_response_per_line envEmptyOk initState "  ").1 (by decide),
   (C1_single_json_response_per_line envEmptyOk initState "x").2 (by decide)⟩

/-- C2: every exception raised while handling a non-blank line is
converted into exactly one failure response carrying the best-available
id and the loop continues, so a subsequent line is processed from the
resulting state; in particular a parse failure raises with the empty id
and an unchanged state. -/
theorem C2_exception_means_one_failure_response (env : Env) (st : WorkerState)
    (raw : String) (hb : pyStrip raw ≠ "") :
    (∀ rid m st₁, handleLine env st (pyStrip raw) = .error (rid, m, st₁) →
       rid = ridOf env (pyStrip raw) ∧
       processLine env st raw = (some (Json.dumps (failObj rid m) ++ "\n"), st₁) ∧
       ∀ rest, (runWorker env st (raw :: rest)).1 =
         (Json.dumps (failObj rid m) ++ "\n") :: (runWorker env st₁ rest).1) ∧
    (∀ e, env.parse (pyStrip raw) = .error e →
       handleLine env st (pyStrip raw) = .error ("", e, st)) := by
  constructor
  · intro rid m st₁ he
    have hrid : rid = ridOf env (pyStrip raw) := by
      rcases handleLine_id env st (pyStrip raw) with ⟨m₁, st₂, he₁⟩ | ⟨s, st₂, he₁⟩
      · rw [he] at he₁
        simp only [Except.error.injEq, Prod.mk.injEq] at he₁
        exact he₁.1
      · rw [he] at he₁
        simp at he₁
    refine ⟨hrid, ?_, ?_⟩
    · simp [processLine, hb, he]
    · intro rest
      simp [runWorker, processLine, hb, he]
  · intro e hpe
    simp [handleLine, hpe]

/-- Witness for C2: an unparseable line yields the empty-id failure
response and the loop goes on. -/
theorem C2_exception_means_one_failure_response_witness :
    "" = ridOf envParseFail (pyStrip "oops") ∧
    processLine envParseFail initState "oops" =
      (some (Json.dumps (failObj "" "Expecting value: line 1 column 1 (char 0)") ++ "\n"),
        initState) ∧
    ∀ rest, (runWorker envParseFail initState ("oops" :: rest)).1 =
      (Json.dumps (failObj "" "Expecting value: line 1 column 1 (char 0)") ++ "\n") ::
        (runWorker envParseFail initState rest).1 :=
  (C2_exception_means_one_failure_response envParseFail initState "oops"
    (by decide)).1 "" "Expecting value: line 1 column 1 (char 0)" initState rfl

/-- C9: the id field of every emitted response equals the best-available
id of its line; for a request carrying a string id that is the id
verbatim, and it is the empty string when the request carries no id or
the line does not parse. -/
theorem C9_response_id_matches_request (env : Env) (st : WorkerState) (raw : String)
    (hb : pyStrip raw ≠ "") :
    (∃ kvs, (processLine env st raw).1 = some (Json.dumps (Json.obj kvs) ++ "\n") ∧
       lookupLast kvs "id" = some (Json.str (ridOf env (pyStrip raw)))) ∧
    (∀ kvs s, env.parse (pyStrip raw) = .ok (Json.obj kvs) →
       lookupLast kvs "id" = some (Json.str s) → ridOf env (pyStrip raw) = s) ∧
    (∀ kvs, env.parse (pyStrip raw) = .ok (Json.obj kvs) →
       lookupLast kvs "id" = none → ridOf env (pyStrip raw) = "") ∧
    (∀ e, env.parse (pyStrip raw) = .error e → ridOf env (pyStrip raw) = "") := by
  refine ⟨?_, ?_, ?_, ?_⟩
  · rcases handleLine_id env st (pyStrip raw) with ⟨m, st₁, he⟩ | ⟨s, st₁, he⟩
    · refine ⟨[("id", Json.str (ridOf env (pyStrip raw))), ("ok", Json.bool false),
          ("error", Json.str m)], ?_, rfl⟩
      simp [processLine, hb, he, failObj]
    · refine ⟨[("id", Json.str (ridOf env (pyStrip raw))), ("ok", Json.bool true),
          ("format", Json.str "wav_24000"), ("sample_rate", Json.num 24000),
          ("audio_base64", Json.str s)], ?_, rfl⟩
      simp [processLine, hb, he, successObj]
  · intro kvs s hp hlk
    by_cases hs : s = ""
    · subst hs
      simp [ridOf, hp, jsonGet, hlk, orDefault, truthy, pyStr]
    · simp [ridOf, hp, jsonGet, hlk, orDefault, truthy, pyStr, hs]
  · intro kvs hp hlk
    simp [ridOf, hp, jsonGet, hlk, orDefault, pyStr]
  · intro e hpe
    simp [ridOf, hpe]

/-! ### Engine pool facts -/

theorem lookup_append_some {k : String} {l₁ l₂ : List (String × Nat)} {v : Nat}
    (h : List.lookup k l₁ = some v) : List.lookup k (l₁ ++ l₂) = some v := by
  induction l₁ with
  | nil => simp at h
  | cons a l ih =>
    obtain ⟨k₁, v₁⟩ := a
    rw [List.lookup_cons] at h
    rw [List.cons_append, List.lookup_cons]
    cases hbe : k == k₁ with
    | true =>
      simp only [hbe] at h ⊢
      exact h
    | false =>
      simp only [hbe] at h ⊢
      exact ih h

theorem lookup_append_none {k : String} {l₁ l₂ : List (String × Nat)}
    (h : List.lookup k l₁ = none) : List.lookup k (l₁ ++ l₂) = List.lookup k l₂ := by
  induction l₁ with
  | nil => simp
  | cons a l ih =>
    obtain ⟨k₁, v₁⟩ := a
    rw [List.lookup_cons] at h
    rw [List.cons_append, List.lookup_cons]
    cases hbe : k == k₁ with
    | true =>
      simp only [hbe] at h
      exact Option.noConfusion h
    | false =>
      simp only [hbe] at h ⊢
      exact ih h

theorem lookup_none_not_key {k : String} {l : List (String × Nat)}
    (h : List.lookup k l = none) : k ∉ l.map Prod.fst := by
  induction l with
  | nil => simp
  | cons a t ih =>
    obtain ⟨k₁, v₁⟩ := a
    rw [List.lookup_cons] at h
    cases hbe : k == k₁ with
    | true =>
      simp only [hbe] at h
      exact Option.noConfusion h
    | false =>
      simp only [hbe] at h
      simp only [List.map_cons, List.mem_cons]
      rintro (h1 | h1)
      · rw [h1, beq_self_eq_true] at hbe
        cases hbe
      · exact ih h h1

/-- A cache miss either constructs, caches and returns a fresh
instance, or raises leaving the cache untouched. -/
theorem get_pipeline_miss_cases (env : Env) (st : WorkerState) (lc : String)
    (hlk : List.lookup (normLang lc) st.pipelines = none) :
    get_pipeline env st lc = .ok (st.constructed,
      { st with attempts := st.attempts + 1, constructed := st.constructed + 1,
                pipelines := st.pipelines ++ [(normLang lc, st.constructed)] }) ∨
    ∃ m, get_pipeline env st lc = .error (m, { st with attempts := st.attempts + 1 }) := by
  cases hc2 : env.construct2 (normLang lc) st.attempts with
  | ok u =>
    cases u
    left
    simp [get_pipeline, hlk, hc2]
  | error e =>
    cases e with
    | typeError m₂ =>
      cases hc1 : env.construct1 (normLang lc) st.attempts with
      | ok u =>
        cases u
        left
        simp [get_pipeline, hlk, hc2, hc1]
      | error m =>
        right
        exact ⟨m, by simp [get_pipeline, hlk, hc2, hc1]⟩
    | other m =>
      right
      exact ⟨m, by simp [get_pipeline, hlk, hc2]⟩

/-- A pipeline acquisition either leaves the pool untouched or caches
exactly one fresh instance under the missing normalized key. -/
theorem get_pipeline_pool (env : Env) (st : WorkerState) (lc : String) :
    ((pipeState (get_pipeline env st lc)).pipelines = st.pipelines ∧
     (pipeState (get_pipeline env st lc)).constructed = st.constructed) ∨
    (List.lookup (normLang lc) st.pipelines = none ∧
     (pipeState (get_pipeline env st lc)).pipelines =
       st.pipelines ++ [(normLang lc, st.constructed)] ∧
     (pipeState (get_pipeline env st lc)).constructed = st.constructed + 1) := by
  cases hlk : List.lookup (normLang lc) st.pipelines with
  | some q =>
    left
    simp [get_pipeline, hlk, pipeState]
  | none =>
    rcases get_pipeline_miss_cases env st lc hlk with h1 | ⟨m, h1⟩
    · right
      rw [h1]
      exact ⟨rfl, rfl, rfl⟩
    · left
      rw [h1]
      exact ⟨rfl, rfl⟩


/-- One handling step either leaves the pool untouched or changes it
exactly as one pipeline acquisition does. -/
theorem handleLine_pool_cases (env : Env) (st : WorkerState) (l : String) :
    ((hlState (handleLine env st l)).pipelines = st.pipelines ∧
     (hlState (handleLine env st l)).constructed = st.constructed) ∨
    ∃ lc, (hlState (handleLine env st l)).pipelines =
            (pipeState (get_pipeline env st lc)).pipelines ∧
          (hlState (handleLine env st l)).constructed =
            (pipeState (get_pipeline env st lc)).constructed := by
  cases hp : env.parse l with
  | error m =>
    left
    simp [handleLine, hp, hlState]
  | ok req =>
    cases hid : jsonGet req "id" with
    | error m =>
      left
      simp [handleLine, handleParsed, hp, hid, hlState]
    | ok idv =>
      cases hn : normalizeRest req with
      | error m =>
        left
        simp [handleLine, handleParsed, hp, hid, hn, hlState]
      | ok tup =>
        obtain ⟨text, voice, lc, speed⟩ := tup
        by_cases ht : text = ""
        · left
          simp [handleLine, handleParsed, hp, hid, hn, ht, hlState]
        · right
          refine ⟨lc, ?_⟩
          cases hg : get_pipeline env st lc with
          | error e =>
            obtain ⟨m, st₁⟩ := e
            simp [handleLine, handleParsed, synthesize, hp, hid, hn, ht, hg, hlState, pipeState]
          | ok pr =>
            obtain ⟨pid, st₁⟩ := pr
            cases hrun : env.run pid text voice speed with
            | error m =>
              simp [handleLine, handleParsed, synthesize, hp, hid, hn, ht, hg, hrun,
                hlState, pipeState]
            | ok chunks =>
              simp [handleLine, handleParsed, synthesize, hp, hid, hn, ht, hg, hrun,
                hlState, pipeState]

/-- The state a loop iteration hands to the next iteration is the state
the handling step reached. -/
theorem processLine_snd (env : Env) (st : WorkerState) (raw : String)
    (hb : pyStrip raw ≠ "") :
    (processLine env st raw).2 = hlState (handleLine env st (pyStrip raw)) := by
  cases hH : handleLine env st (pyStrip raw) with
  | error e =>
    obtain ⟨rid, m, st₁⟩ := e
    simp [processLine, hb, hH, hlState]
  | ok pr =>
    obtain ⟨resp, st₁⟩ := pr
    simp [processLine, hb, hH, hlState]

/-- One loop iteration never drops a cache entry. -/
theorem processLine_pipelines_mono (env : Env) (st : WorkerState) (raw : String)
    (k : String) (v : Nat) (h : List.lookup k st.pipelines = some v) :
    List.lookup k ((processLine env st raw).2).pipelines = some v := by
  by_cases hb : pyStrip raw = ""
  · simpa [processLine, hb] using h
  · rw [processLine_snd env st raw hb]
    rcases handleLine_pool_cases env st (pyStrip raw) with ⟨hp, _⟩ | ⟨lc, hp, _⟩
    · rw [hp]
      exact h
    · rw [hp]
      rcases get_pipeline_pool env st lc with ⟨hq, _⟩ | ⟨_, hq, _⟩
      · rw [hq]
        exact h
      · rw [hq]
        exact lookup_append_some h

/-- One loop iteration keeps the cache keys distinct and keeps the
count of constructed engines equal to the cache size. -/
theorem processLine_pool_wf (env : Env) (st : WorkerState) (raw : String)
    (hnd : (st.pipelines.map Prod.fst).Nodup)
    (hct : st.constructed = st.pipelines.length) :
    (((processLine env st raw).2).pipelines.map Prod.fst).Nodup ∧
    ((processLine env st raw).2).constructed =
      ((processLine env st raw).2).pipelines.length := by
  by_cases hb : pyStrip raw = ""
  · refine ⟨?_, ?_⟩
    · simpa [processLine, hb] using hnd
    · simpa [processLine, hb] using hct
  · rw [processLine_snd env st raw hb]
    rcases handleLine_pool_cases env st (pyStrip raw) with ⟨hp, hc⟩ | ⟨lc, hp, hc⟩
    · rw [hp, hc]
      exact ⟨hnd, hct⟩
    · rw [hp, hc]
      rcases get_pipeline_pool env st lc with ⟨hq, hd⟩ | ⟨hfresh, hq, hd⟩
      · rw [hq, hd]
        exact ⟨hnd, hct⟩
      · rw [hq, hd]
        constructor
        · rw [List.map_append]
          rw [List.nodup_append]
          refine ⟨hnd, by simp, ?_⟩
          intro a ha hmem
          simp only [List.map_cons, List.map_nil, List.mem_singleton] at hmem
          rw [hmem] at ha
          exact lookup_none_not_key hfresh ha
        · rw [List.length_append, hct]
          simp

/-- C7: the engine pool constructs at most one instance per distinct
normalized language code: a cache hit returns the cached handle with no
construction, a second acquisition of the same code after a successful
one is a cache hit, a successful acquisition of a missing code
constructs exactly one instance and leaves any other missing code
missing, no request processing ever evicts an entry, and over any run
of the loop the cache keys stay distinct with exactly one constructed
instance per cached code. -/
theorem C7_one_engine_per_language_code :
    (∀ (env : Env) (st : WorkerState) (lc : String) (p : Nat),
       List.lookup (normLang lc) st.pipelines = some p →
       get_pipeline env st lc = .ok (p, st)) ∧
    (∀ (env : Env) (st : WorkerState) (lc : String) (p : Nat) (st₁ : WorkerState),
       get_pipeline env st lc = .ok (p, st₁) →
       get_pipeline env st₁ lc = .ok (p, st₁) ∧
       (List.lookup (normLang lc) st.pipelines = none →
          st₁.constructed = st.constructed + 1)) ∧
    (∀ (env : Env) (st : WorkerState) (lc c₂ : String) (p : Nat) (st₁ : WorkerState),
       normLang c₂ ≠ normLang lc →
       get_pipeline env st lc = .ok (p, st₁) →
       List.lookup (normLang c₂) st.pipelines = none →
       List.lookup (normLang c₂) st₁.pipelines = none) ∧
    (∀ (env : Env) (st : WorkerState) (lines : List String) (k : String) (v : Nat),
       List.lookup k st.pipelines = some v →
       List.lookup k ((runWorker env st lines).2).pipelines = some v) ∧
    (∀ (env : Env) (st : WorkerState) (lines : List String),
       (st.pipelines.map Prod.fst).Nodup →
       st.constructed = st.pipelines.length →
       (((runWorker env st lines).2).pipelines.map Prod.fst).Nodup ∧
       ((runWorker env st lines).2).constructed =
         ((runWorker env st lines).2).pipelines.length) := by
  refine ⟨?_, ?_, ?_, ?_, ?_⟩
  · intro env st lc p h
    simp [get_pipeline, h]
  · intro env st lc p st₁ hok
    cases hlk : List.lookup (normLang lc) st.pipelines with
    | some q =>
      have h1 : get_pipeline env st lc = .ok (q, st) := by simp [get_pipeline, hlk]
      rw [h1] at hok
      simp only [Except.ok.injEq, Prod.mk.injEq] at hok
      obtain ⟨h2, h3⟩ := hok
      subst h2
      subst h3
      exact ⟨h1, fun hn => Option.noConfusion hn⟩
    | none =>
      rcases get_pipeline_miss_cases env st lc hlk with h1 | ⟨m, h1⟩
      · rw [h1] at hok
        simp only [Except.ok.injEq, Prod.mk.injEq] at hok
        obtain ⟨h2, h3⟩ := hok
        subst h2
        subst h3
        constructor
        · have hl2 : List.lookup (normLang lc)
              (st.pipelines ++ [(normLang lc, st.constructed)]) = some st.constructed := by
            rw [lookup_append_none hlk]
            simp [List.lookup_cons]
          simp [get_pipeline, hl2]
        · intro _
          rfl
      · rw [h1] at hok
        cases hok
  · intro env st lc c₂ p st₁ hne hok hlk₂
    cases hlk : List.lookup (normLang lc) st.pipelines with
    | some q =>
      have h1 : get_pipeline env st lc = .ok (q, st) := by simp [get_pipeline, hlk]
      rw [h1] at hok
      simp only [Except.ok.injEq, Prod.mk.injEq] at hok
      obtain ⟨h2, h3⟩ := hok
      subst h3
      exact hlk₂
    | none =>
      rcases get_pipeline_miss_cases env st lc hlk with h1 | ⟨m, h1⟩
      · rw [h1] at hok
        simp only [Except.ok.injEq, Prod.mk.injEq] at hok
        obtain ⟨h2, h3⟩ := hok
        subst h3
        rw [lookup_append_none hlk₂]
        rw [List.lookup_cons]
        have : (normLang c₂ == normLang lc) = false := by
          simpa using hne
        simp [this]
      · rw [h1] at hok
        cases hok
  · intro env st lines k v h
    induction lines generalizing st with
    | nil => simpa [runWorker] using h
    | cons l ls ih =>
      have hstep := processLine_pipelines_mono env st l k v h
      cases hpl : processLine env st l with
      | mk o st₁ =>
        rw [hpl] at hstep
        cases o with
        | none => simpa [runWorker, hpl] using ih st₁ hstep
        | some out => simpa [runWorker, hpl] using ih st₁ hstep
  · intro env st lines hnd hct
    induction lines generalizing st with
    | nil => exact ⟨by simpa [runWorker] using hnd, by simpa [runWorker] using hct⟩
    | cons l ls ih =>
      have hstep := processLine_pool_wf env st l hnd hct
      cases hpl : processLine env st l with
      | mk o st₁ =>
        rw [hpl] at hstep
        cases o with
        | none => simpa [runWorker, hpl] using ih st₁ hstep.1 hstep.2
        | some out => simpa [runWorker, hpl] using ih st₁ hstep.1 hstep.2

/-- Witness for C7: constructing for code a once, acquiring it again,
and running the loop, all from the initial state. -/
theorem C7_one_engine_per_language_code_witness :
    (get_pipeline envEmptyOk
        ⟨[("a", 0)], 1, 1, []⟩ "a" = .ok (0, ⟨[("a", 0)], 1, 1, []⟩)) ∧
    (get_pipeline envEmptyOk ⟨[("a", 0)], 1, 1, []⟩ "a" = .ok (0, ⟨[("a", 0)], 1, 1, []⟩) ∧
      (List.lookup (normLang "a") (initState).pipelines = none →
        (⟨[("a", 0)], 1, 1, []⟩ : WorkerState).constructed = initState.constructed + 1)) ∧
    (List.lookup "a" ((runWorker envEmptyOk ⟨[("a", 0)], 1, 1, []⟩ ["x"]).2).pipelines =
      some 0) ∧
    ((((runWorker envEmptyOk initState ["x"]).2).pipelines.map Prod.fst).Nodup ∧
      ((runWorker envEmptyOk initState ["x"]).2).constructed =
        ((runWorker envEmptyOk initState ["x"]).2).pipelines.length) :=
  ⟨C7_one_engine_per_language_code.1 envEmptyOk ⟨[("a", 0)], 1, 1, []⟩ "a" 0 rfl,
   C7_one_engine_per_language_code.2.1 envEmptyOk initState "a" 0 ⟨[("a", 0)], 1, 1, []⟩ rfl,
   C7_one_engine_per_language_code.2.2.2.1 envEmptyOk ⟨[("a", 0)], 1, 1, []⟩ ["x"] "a" 0 rfl,
   C7_one_engine_per_language_code.2.2.2.2 envEmptyOk initState ["x"] (by simp [initState]) rfl⟩

/-- C8: when the preferred construction form is rejected with a
TypeError and the fallback form also fails, the acquisition raises, the
failure propagates through the synthesis step for that request, the
cache is left with no entry under the key, and a later acquisition of
the same code attempts construction again and may succeed. -/
theorem C8_failed_construction_not_cached (env : Env) (st : WorkerState)
    (lc m₂ m₁ : String)
    (hmiss : List.lookup (normLang lc) st.pipelines = none)
    (h2 : env.construct2 (normLang lc) st.attempts = .error (.typeError m₂))
    (h1 : env.construct1 (normLang lc) st.attempts = .error m₁) :
    get_pipeline env st lc = .error (m₁, { st with attempts := st.attempts + 1 }) ∧
    List.lookup (normLang lc)
      ({ st with attempts := st.attempts + 1 } : WorkerState).pipelines = none ∧
    (∀ rid text voice speed, synthesize env st rid text voice lc speed =
       .error (rid, m₁, { st with attempts := st.attempts + 1 })) ∧
    (∀ env' : Env, env'.construct2 (normLang lc) (st.attempts + 1) = .ok () →
       get_pipeline env' { st with attempts := st.attempts + 1 } lc =
         .ok (st.constructed,
           { st with attempts := st.attempts + 2, constructed := st.constructed + 1,
                     pipelines := st.pipelines ++ [(normLang lc, st.constructed)] })) := by
  have hfail : get_pipeline env st lc = .error (m₁, { st with attempts := st.attempts + 1 }) := by
    simp [get_pipeline, hmiss, h2, h1]
  refine ⟨hfail, hmiss, ?_, ?_⟩
  · intro rid text voice speed
    simp [synthesize, hfail]
  · intro env' hc
    simp only [get_pipeline, hmiss, hc]

/-- Witness for C8 at the flaky-constructor oracle: the first
acquisition of code a fails and caches nothing, the second succeeds. -/
theorem C8_failed_construction_not_cached_witness :
    get_pipeline envCtorFlaky initState "a" =
      .error ("no model weights available", { initState with attempts := 1 }) ∧
    List.lookup (normLang "a")
      ({ initState with attempts := initState.attempts + 1 } : WorkerState).pipelines = none ∧
    (∀ rid text voice speed, synthesize envCtorFlaky initState rid text voice "a" speed =
       .error (rid, "no model weights available", { initState with attempts := 1 })) ∧
    (∀ env' : Env, env'.construct2 (normLang "a") (initState.attempts + 1) = .ok () →
       get_pipeline env' { initState with attempts := initState.attempts + 1 } "a" =
         .ok (initState.constructed,
           { initState with attempts := initState.attempts + 2,
                            constructed := initState.constructed + 1,
                            pipelines := initState.pipelines ++
                              [(normLang "a", initState.constructed)] })) :=
  C8_failed_construction_not_cached envCtorFlaky initState "a"
    "got an unexpected keyword argument repo_id" "no model weights available" rfl rfl rfl

/-- Witness for C9 at a request carrying the string id 7. -/
theorem C9_response_id_matches_request_witness :
    (∃ kvs, (processLine envIdSeven initState "q").1 =
        some (Json.dumps (Json.obj kvs) ++ "\n") ∧
      lookupLast kvs "id" = some (Json.str (ridOf envIdSeven (pyStrip "q")))) ∧
    ridOf envIdSeven (pyStrip "q") = "7" :=
  ⟨(C9_response_id_matches_request envIdSeven initState "q" (by decide)).1,
   (C9_response_id_matches_request envIdSeven initState "q" (by decide)).2.1
     [("id", Json.str "7"), ("text", Json.str "")] "7" rfl rfl⟩

/-! ### Empty-text fast path and speed handling -/

/-- C3 counterexample: a request whose text is empty but whose truthy
speed value cannot be converted to a float is answered with a failure
response, not with the empty success response the claim promises,
because normalization runs before the empty-text check. -/
theorem C3_empty_text_fastpath_counterexample :
    processLine envTextEmptyBadSpeed initState "x" =
      (some (Json.dumps (failObj "" "could not convert string to float: abc") ++ "\n"),
        initState) ∧
    failObj "" "could not convert string to float: abc" ≠ successObj "" "" := by
  refine ⟨rfl, ?_⟩
  simp [failObj, successObj]

/-- C3 (amended): a request whose text is empty, whitespace-only or
absent, and whose remaining fields normalize without raising, is
answered with the empty success response, with the state unchanged and
independently of the engine oracle, so the engine pool is never
consulted and no engine is constructed or invoked. -/
theorem C3_empty_text_fastpath_amended (env env' : Env) (st : WorkerState)
    (raw : String) (req : Json) (rid voice lc : String) (speed : ℚ)
    (hb : pyStrip raw ≠ "")
    (hp : env.parse (pyStrip raw) = .ok req)
    (hid : extractId req = .ok rid)
    (hn : normalizeRest req = .ok ("", voice, lc, speed)) :
    processLine env st raw = (some (Json.dumps (successObj rid "") ++ "\n"), st) ∧
    (env'.parse (pyStrip raw) = .ok req →
       processLine env' st raw = processLine env st raw) := by
  cases hjg : jsonGet req "id" with
  | error m =>
    rw [extractId, hjg] at hid
    simp [Except.map] at hid
  | ok idv =>
    rw [extractId, hjg] at hid
    simp only [Except.map, Except.ok.injEq] at hid
    have hH : ∀ e : Env, e.parse (pyStrip raw) = .ok req →
        handleLine e st (pyStrip raw) = .ok (successObj rid "", st) := by
      intro e hpe
      simp [handleLine, hpe, handleParsed, hjg, hn, hid]
    have h1 : processLine env st raw = (some (Json.dumps (successObj rid "") ++ "\n"), st) := by
      simp [processLine, hb, hH env hp]
    refine ⟨h1, fun hp' => ?_⟩
    rw [h1]
    simp [processLine, hb, hH env' hp']

/-- Witness for C3 (amended): a request with no fields at all has an
absent text and is answered with the empty success response under any
engine oracle. -/
theorem C3_empty_text_fastpath_amended_witness :
    processLine envEmptyOk initState "x" =
      (some (Json.dumps (successObj "" "") ++ "\n"), initState) ∧
    (envCtorFlaky.parse (pyStrip "x") = .ok (Json.obj []) →
       processLine envCtorFlaky initState "x" = processLine envEmptyOk initState "x") :=
  C3_empty_text_fastpath_amended envEmptyOk envCtorFlaky initState "x" (Json.obj [])
    "" "af_heart" "a" (pyClampSpeed 1) (by decide) rfl rfl rfl

/-- C4 counterexample: a request carrying the numeric speed 0 reaches
the engine with speed 1.0 (the default, since 0 is falsy), not with the
clamp of 0 to the interval, which would be 0.7. -/
theorem C4_speed_clamp_counterexample :
    (hlState (handleLine envSpeedZero initState "r")).runs =
      [(0, "hi", "af_heart", pyClampSpeed 1)] ∧
    pyClampSpeed 1 = 1 ∧ pyClampSpeed 0 = 7/10 ∧ (1 : ℚ) ≠ 7/10 := by
  refine ⟨rfl, ?_, ?_, ?_⟩
  · norm_num [pyClampSpeed]
  · norm_num [pyClampSpeed]
  · norm_num

/-- C4 (amended): a request carrying a nonzero numeric speed s reaches
the engine with exactly the clamp of s to the interval from 0.7 to 1.2:
values below 0.7 become 0.7, values above 1.2 become 1.2, values inside
the interval pass unchanged, and nothing is ever rejected; an absent,
zero or otherwise falsy speed instead defaults to 1.0. -/
theorem C4_speed_clamp_amended :
    (∀ (kvs : List (String × Json)) (s : ℚ), lookupLast kvs "speed" = some (Json.num s) →
       s ≠ 0 → extractSpeed (Json.obj kvs) = .ok (pyClampSpeed s)) ∧
    (∀ kvs : List (String × Json), lookupLast kvs "speed" = none →
       extractSpeed (Json.obj kvs) = .ok (pyClampSpeed 1)) ∧
    (∀ s : ℚ, (s < 7/10 → pyClampSpeed s = 7/10) ∧
              (6/5 < s → pyClampSpeed s = 6/5) ∧
              (7/10 ≤ s → s ≤ 6/5 → pyClampSpeed s = s)) ∧
    pyClampSpeed 1 = 1 ∧
    (∀ (env : Env) (st : WorkerState) (rid text voice lc : String) (speed : ℚ)
       (pid : Nat) (st₁ : WorkerState),
       get_pipeline env st lc = .ok (pid, st₁) →
       (hlState (synthesize env st rid text voice lc speed)).runs =
         st₁.runs ++ [(pid, text, voice, speed)]) ∧
    (∀ (env : Env) (st : WorkerState) (l : String) (req : Json)
       (text voice lc : String) (speed : ℚ),
       env.parse l = .ok req →
       normalizeRest req = .ok (text, voice, lc, speed) →
       text ≠ "" →
       handleLine env st l = synthesize env st (ridOf env l) text voice lc speed) := by
  refine ⟨?_, ?_, ?_, ?_, ?_, ?_⟩
  · intro kvs s hlk hs
    have h1 : jsonGet (Json.obj kvs) "speed" = .ok (some (Json.num s)) := by
      simp [jsonGet, hlk]
    simp [extractSpeed, h1, orDefault, truthy, hs, pyFloat, Except.map, bind, Except.bind]
  · intro kvs hlk
    have h1 : jsonGet (Json.obj kvs) "speed" = .ok none := by
      simp [jsonGet, hlk]
    simp [extractSpeed, h1, orDefault, pyFloat, Except.map, bind, Except.bind]
  · intro s
    refine ⟨?_, ?_, ?_⟩
    · intro h
      have h2 : ¬ (7/10 : ℚ) > 6/5 := by norm_num
      simp [pyClampSpeed, h, h2]
    · intro h
      have h2 : ¬ s < 7/10 := by
        intro h3
        have : (7/10 : ℚ) < 6/5 := by norm_num
        linarith
      simp [pyClampSpeed, h2, h]
    · intro h1 h2
      have h3 : ¬ s < 7/10 := not_lt.mpr h1
      have h4 : ¬ s > 6/5 := not_lt.mpr h2
      simp [pyClampSpeed, h3, h4]
  · norm_num [pyClampSpeed]
  · intro env st rid text voice lc speed pid st₁ hg
    cases hrun : env.run pid text voice speed with
    | error m => simp [synthesize, hg, hrun, hlState]
    | ok chunks => simp [synthesize, hg, hrun, hlState]
  · intro env st l req text voice lc speed hp hn ht
    cases req with
    | obj kvs =>
      simp [handleLine, hp, handleParsed, jsonGet, hn, ht, ridOf]
    | null => simp [normalizeRest, extractText, jsonGet, Except.map, bind, Except.bind] at hn
    | bool b => simp [normalizeRest, extractText, jsonGet, Except.map, bind, Except.bind] at hn
    | num q => simp [normalizeRest, extractText, jsonGet, Except.map, bind, Except.bind] at hn
    | str s2 => simp [normalizeRest, extractText, jsonGet, Except.map, bind, Except.bind] at hn
    | arr xs => simp [normalizeRest, extractText, jsonGet, Except.map, bind, Except.bind] at hn

/-- Witness for C4 (amended) at a request with speed 5 and at a request
with no speed field. -/
theorem C4_speed_clamp_amended_witness :
    extractSpeed (Json.obj [("text", Json.str "hi"), ("speed", Json.num 5)]) =
      .ok (pyClampSpeed 5) ∧
    extractSpeed (Json.obj []) = .ok (pyClampSpeed 1) ∧
    (hlState (synthesize envSpeedFive initState "" "hi" "af_heart" "a"
        (pyClampSpeed 5))).runs =
      (⟨[("a", 0)], 1, 1, []⟩ : WorkerState).runs ++ [(0, "hi", "af_heart", pyClampSpeed 5)] ∧
    handleLine envSpeedFive initState "r" =
      synthesize envSpeedFive initState (ridOf envSpeedFive "r") "hi" "af_heart" "a"
        (pyClampSpeed 5) :=
  ⟨C4_speed_clamp_amended.1 [("text", Json.str "hi"), ("speed", Json.num 5)] 5 rfl
     (by decide),
   C4_speed_clamp_amended.2.1 [] rfl,
   C4_speed_clamp_amended.2.2.2.2.1 envSpeedFive initState "" "hi" "af_heart" "a"
     (pyClampSpeed 5) 0 ⟨[("a", 0)], 1, 1, []⟩ rfl,
   C4_speed_clamp_amended.2.2.2.2.2 envSpeedFive initState "r"
     (Json.obj [("text", Json.str "hi"), ("speed", Json.num 5)])
     "hi" "af_heart" "a" (pyClampSpeed 5) rfl rfl (by decide)⟩

/-- C10: a field present with a falsy JSON value (null, false, the
number 0 or the empty string) is treated exactly like an absent field
and replaced by that field default: a falsy speed becomes the default
1.0 rather than the clamp minimum 0.7, a falsy id is echoed as the
empty string, falsy voice and lang_code fall back to their sentinels,
and a truthy non-string value of id, text, voice or lang_code is
coerced to its string representation rather than rejected (for voice
and lang_code the coercion is then stripped, with the sentinel standing
in when the strip leaves nothing, exactly as for a string value). -/
theorem C10_falsy_fields_take_defaults :
    (∀ (d v : Json), truthy v = false → orDefault (some v) d = d) ∧
    (∀ d : Json, orDefault none d = d) ∧
    (∀ (kvs : List (String × Json)) (v : Json), lookupLast kvs "speed" = some v →
       truthy v = false → extractSpeed (Json.obj kvs) = .ok (pyClampSpeed 1)) ∧
    (pyClampSpeed 1 = 1 ∧ pyClampSpeed 1 ≠ 7/10) ∧
    (∀ (kvs : List (String × Json)) (v : Json), lookupLast kvs "id" = some v →
       truthy v = false → extractId (Json.obj kvs) = .ok "") ∧
    (∀ (kvs : List (String × Json)) (v : Json), lookupLast kvs "voice" = some v →
       truthy v = false → extractVoice (Json.obj kvs) = .ok "af_heart") ∧
    (∀ (kvs : List (String × Json)) (v : Json), lookupLast kvs "lang_code" = some v →
       truthy v = false → extractLang (Json.obj kvs) = .ok "a") ∧
    (∀ (kvs : List (String × Json)) (v : Json), lookupLast kvs "text" = some v →
       truthy v = false → extractText (Json.obj kvs) = .ok "") ∧
    (∀ (kvs : List (String × Json)) (v : Json), lookupLast kvs "id" = some v →
       truthy v = true → extractId (Json.obj kvs) = .ok (pyStr v)) ∧
    (∀ (kvs : List (String × Json)) (v : Json), lookupLast kvs "text" = some v →
       truthy v = true → extractText (Json.obj kvs) = .ok (pyStrip (pyStr v))) ∧
    (∀ (kvs : List (String × Json)) (v : Json), lookupLast kvs "voice" = some v →
       truthy v = true → extractVoice (Json.obj kvs) =
         .ok (if pyStrip (pyStr v) = "" then "af_heart" else pyStrip (pyStr v))) ∧
    (∀ (kvs : List (String × Json)) (v : Json), lookupLast kvs "lang_code" = some v →
       truthy v = true → extractLang (Json.obj kvs) =
         .ok (if pyStrip (pyStr v) = "" then "a" else pyStrip (pyStr v))) ∧
    (truthy (Json.num 0) = false ∧ truthy (Json.bool false) = false ∧
     truthy Json.null = false ∧ truthy (Json.str "") = false ∧
     pyStr (Json.num 0) = "0" ∧ pyStr (Json.bool true) = "True" ∧
     pyStr (Json.num 5) = "5") := by
  refine ⟨?_, ?_, ?_, ?_, ?_, ?_, ?_, ?_, ?_, ?_, ?_, ?_, ?_⟩
  · intro d v h
    simp [orDefault, h]
  · intro d
    simp [orDefault]
  · intro kvs v hlk htr
    have h1 : jsonGet (Json.obj kvs) "speed" = .ok (some v) := by simp [jsonGet, hlk]
    simp [extractSpeed, h1, orDefault, htr, pyFloat, Except.map, bind, Except.bind]
  · constructor
    · norm_num [pyClampSpeed]
    · norm_num [pyClampSpeed]
  · intro kvs v hlk htr
    have h1 : jsonGet (Json.obj kvs) "id" = .ok (some v) := by simp [jsonGet, hlk]
    simp [extractId, h1, orDefault, htr, pyStr, Except.map]
  · intro kvs v hlk htr
    have h1 : jsonGet (Json.obj kvs) "voice" = .ok (some v) := by simp [jsonGet, hlk]
    simp [extractVoice, h1, orDefault, htr, Except.map]
    decide
  · intro kvs v hlk htr
    have h1 : jsonGet (Json.obj kvs) "lang_code" = .ok (some v) := by simp [jsonGet, hlk]
    simp [extractLang, h1, orDefault, htr, Except.map]
    decide
  · intro kvs v hlk htr
    have h1 : jsonGet (Json.obj kvs) "text" = .ok (some v) := by simp [jsonGet, hlk]
    simp [extractText, h1, orDefault, htr, Except.map]
    decide
  · intro kvs v hlk htr
    have h1 : jsonGet (Json.obj kvs) "id" = .ok (some v) := by simp [jsonGet, hlk]
    simp [extractId, h1, orDefault, htr, Except.map]
  · intro kvs v hlk htr
    have h1 : jsonGet (Json.obj kvs) "text" = .ok (some v) := by simp [jsonGet, hlk]
    simp [extractText, h1, orDefault, htr, Except.map]
  · intro kvs v hlk htr
    have h1 : jsonGet (Json.obj kvs) "voice" = .ok (some v) := by simp [jsonGet, hlk]
    simp [extractVoice, h1, orDefault, htr, Except.map]
  · intro kvs v hlk htr
    have h1 : jsonGet (Json.obj kvs) "lang_code" = .ok (some v) := by simp [jsonGet, hlk]
    simp [extractLang, h1, orDefault, htr, Except.map]
  · exact ⟨by decide, by decide, by decide, by decide, rfl, rfl, rfl⟩

/-- Witness for C10 at falsy values of each field and at truthy
non-string coercions. -/
theorem C10_falsy_fields_take_defaults_witness :
    orDefault (some (Json.num 0)) (Json.num 1) = Json.num 1 ∧
    extractSpeed (Json.obj [("speed", Json.num 0)]) = .ok (pyClampSpeed 1) ∧
    extractId (Json.obj [("id", Json.bool false)]) = .ok "" ∧
    extractId (Json.obj [("id", Json.null)]) = .ok "" ∧
    extractVoice (Json.obj [("voice", Json.str "")]) = .ok "af_heart" ∧
    extractLang (Json.obj [("lang_code", Json.null)]) = .ok "a" ∧
    extractText (Json.obj [("text", Json.num 0)]) = .ok "" ∧
    extractId (Json.obj [("id", Json.num 5)]) = .ok (pyStr (Json.num 5)) ∧
    extractVoice (Json.obj [("voice", Json.num 7)]) =
      .ok (if pyStrip (pyStr (Json.num 7)) = "" then "af_heart"
           else pyStrip (pyStr (Json.num 7))) ∧
    extractLang (Json.obj [("lang_code", Json.num 7)]) =
      .ok (if pyStrip (pyStr (Json.num 7)) = "" then "a"
           else pyStrip (pyStr (Json.num 7))) :=
  ⟨C10_falsy_fields_take_defaults.1 (Json.num 1) (Json.num 0) (by decide),
   C10_falsy_fields_take_defaults.2.2.1 [("speed", Json.num 0)] (Json.num 0) rfl (by decide),
   C10_falsy_fields_take_defaults.2.2.2.2.1 [("id", Json.bool false)] (Json.bool false)
     rfl (by decide),
   C10_falsy_fields_take_defaults.2.2.2.2.1 [("id", Json.null)] Json.null rfl (by decide),
   C10_falsy_fields_take_defaults.2.2.2.2.2.1 [("voice", Json.str "")] (Json.str "")
     rfl (by decide),
   C10_falsy_fields_take_defaults.2.2.2.2.2.2.1 [("lang_code", Json.null)] Json.null
     rfl (by decide),
   C10_falsy_fields_take_defaults.2.2.2.2.2.2.2.1 [("text", Json.num 0)] (Json.num 0)
     rfl (by decide),
   C10_falsy_fields_take_defaults.2.2.2.2.2.2.2.2.1 [("id", Json.num 5)] (Json.num 5)
     rfl (by decide),
   C10_falsy_fields_take_defaults.2.2.2.2.2.2.2.2.2.2.1 [("voice", Json.num 7)]
     (Json.num 7) rfl (by decide),
   C10_falsy_fields_take_defaults.2.2.2.2.2.2.2.2.2.2.2.1 [("lang_code", Json.num 7)]
     (Json.num 7) rfl (by decide)⟩

/-! ### Audio encoder -/

/-- C5 counterexample: at the sample 1/32768 the encoder truncates the
scaled value 32767/32768 to 0, while the round-with-ties-toward-zero
mapping the claim states yields 1. -/
theorem C5_quantization_counterexample :
    pcm16 (1/32768) = 0 ∧ specPcm16 (1/32768) = 1 ∧
    pcm16 (1/32768) ≠ specPcm16 (1/32768) := by
  have hc : clampQ (1/32768 : ℚ) = 1/32768 := by
    unfold clampQ
    norm_num
  have h1 : pcm16 (1/32768) = 0 := by
    rw [pcm16, hc]
    unfold truncQ
    rw [if_neg (by norm_num)]
    rw [Int.floor_eq_zero_iff]
    constructor <;> norm_num
  have h2 : specPcm16 (1/32768) = 1 := by
    rw [specPcm16, hc]
    unfold specRoundTiesToZero
    rw [if_neg (by norm_num)]
    rw [Int.ceil_eq_iff]
    constructor <;> norm_num
  refine ⟨h1, h2, ?_⟩
  rw [h1, h2]
  decide

/-- C5 (amended): each sample is clamped to the interval from -1 to 1
and then converted to a 16-bit signed integer by truncating
sample * 32767 toward zero (a C-style cast, not a rounding): samples at
or above 1 encode to 32767, samples at or below -1 encode to -32767 (so
out-of-range values such as 1.5 and -2.0 encode without error to the
full-scale extremes), in-range samples encode to the truncation of
sample * 32767, every encoded sample lies inside the 16-bit range, and
the container data section is the concatenation of the independent
per-sample encodings. -/
theorem C5_quantization_amended :
    (∀ x : ℚ, pcm16 x = truncQ (clampQ x * 32767)) ∧
    (∀ x : ℚ, 1 ≤ x → pcm16 x = 32767) ∧
    (∀ x : ℚ, x ≤ -1 → pcm16 x = -32767) ∧
    (∀ x : ℚ, -1 ≤ x → x ≤ 1 → pcm16 x = truncQ (x * 32767)) ∧
    (∀ x : ℚ, -32767 ≤ pcm16 x ∧ pcm16 x ≤ 32767) ∧
    (∀ (audio : List ℚ) (sr : ℤ),
       wavData (wav_bytes audio sr) = (audio.map fun x => int16le (pcm16 x)).flatten) := by
  have hfloor : Int.floor ((32767 : ℚ)) = 32767 := by
    rw [show (32767 : ℚ) = ((32767 : ℤ) : ℚ) by norm_num, Int.floor_intCast]
  have hclamp_hi : ∀ x : ℚ, 1 ≤ x → clampQ x = 1 := by
    intro x h
    by_cases h1 : 1 < x
    · have h2 : ¬ x < -1 := by linarith
      simp [clampQ, h1, h2]
    · have hx : x = 1 := le_antisymm (not_lt.mp h1) h
      subst hx
      norm_num [clampQ]
  have hclamp_lo : ∀ x : ℚ, x ≤ -1 → clampQ x = -1 := by
    intro x h
    by_cases h1 : x < -1
    · simp [clampQ, h1]
    · have hx : x = -1 := le_antisymm h (not_lt.mp h1)
      subst hx
      norm_num [clampQ]
  have hclamp_mid : ∀ x : ℚ, -1 ≤ x → x ≤ 1 → clampQ x = x := by
    intro x ha hb
    have h1 : ¬ x < -1 := not_lt.mpr ha
    have h2 : ¬ (1 : ℚ) < x := not_lt.mpr hb
    simp [clampQ, h1, h2]
  have htrunc_hi : truncQ ((1 : ℚ) * 32767) = 32767 := by
    rw [one_mul]
    unfold truncQ
    rw [if_neg (by norm_num)]
    exact hfloor
  have htrunc_lo : truncQ ((-1 : ℚ) * 32767) = -32767 := by
    unfold truncQ
    rw [if_pos (by norm_num)]
    rw [show -((-1 : ℚ) * 32767) = 32767 by norm_num, hfloor]
  refine ⟨fun x => rfl, ?_, ?_, ?_, ?_, ?_⟩
  · intro x h
    rw [pcm16, hclamp_hi x h]
    exact htrunc_hi
  · intro x h
    rw [pcm16, hclamp_lo x h]
    exact htrunc_lo
  · intro x ha hb
    rw [pcm16, hclamp_mid x ha hb]
  · intro x
    have hb : -1 ≤ clampQ x ∧ clampQ x ≤ 1 := by
      unfold clampQ
      split_ifs with h1 h2
      · exact ⟨le_refl _, by norm_num⟩
      · exact ⟨by norm_num, le_refl _⟩
      · exact ⟨not_lt.mp h1, not_lt.mp h2⟩
    have hq1 : (-32767 : ℚ) ≤ clampQ x * 32767 := by nlinarith [hb.1, hb.2]
    have hq2 : clampQ x * 32767 ≤ (32767 : ℚ) := by nlinarith [hb.1, hb.2]
    rw [pcm16]
    unfold truncQ
    split_ifs with hneg
    · constructor
      · have h3 : Int.floor (-(clampQ x * 32767)) ≤ 32767 := by
          calc Int.floor (-(clampQ x * 32767)) ≤ Int.floor ((32767 : ℚ)) :=
                Int.floor_le_floor (by linarith)
            _ = 32767 := hfloor
        omega
      · have h4 : (0 : ℤ) ≤ Int.floor (-(clampQ x * 32767)) := by
          apply Int.floor_nonneg.mpr
          linarith
        omega
    · constructor
      · have h4 : (0 : ℤ) ≤ Int.floor (clampQ x * 32767) := by
          apply Int.floor_nonneg.mpr
          linarith
        omega
      · calc Int.floor (clampQ x * 32767) ≤ Int.floor ((32767 : ℚ)) :=
              Int.floor_le_floor hq2
          _ = 32767 := hfloor
  · intro audio sr
    have hlen : ∀ srN dl : Nat, (wavHeader srN dl).length = 44 := by
      intro srN dl
      simp [wavHeader, u32le, u16le]
    have hdrop : ∀ (srN dl : Nat) (p : List Nat), (wavHeader srN dl ++ p).drop 44 = p := by
      intro srN dl p
      rw [← hlen srN dl]
      exact List.drop_left _ _
    by_cases he : audio.isEmpty
    · have ha : audio = [] := by
        cases audio with
        | nil => rfl
        | cons a t => simp at he
      subst ha
      show ((wavHeader _ _ ++ _).drop 44) = _
      rw [hdrop]
      simp
    · show ((wavHeader _ _ ++ _).drop 44) = _
      rw [hdrop]
      simp [he]

/-- Witness for C5 (amended) at the out-of-range samples 2 and -2 and
the in-range sample 0. -/
theorem C5_quantization_amended_witness :
    pcm16 2 = 32767 ∧ pcm16 (-2) = -32767 ∧ pcm16 0 = truncQ (0 * 32767) ∧
    (-32767 ≤ pcm16 2 ∧ pcm16 2 ≤ 32767) ∧
    wavData (wav_bytes [] 24000) =
      (([] : List ℚ).map fun x => int16le (pcm16 x)).flatten :=
  ⟨C5_quantization_amended.2.1 2 one_le_two,
   C5_quantization_amended.2.2.1 (-2) (neg_le_neg one_le_two),
   C5_quantization_amended.2.2.2.1 0 (neg_nonpos.mpr zero_le_one) zero_le_one,
   C5_quantization_amended.2.2.2.2.1 2,
   C5_quantization_amended.2.2.2.2.2 [] 24000⟩

/-- C6: the encoder is total on an empty buffer and substitutes 24000
for a non-positive sample rate: a non-positive rate encodes exactly as
24000 does, and the empty buffer encodes to a structurally valid
44-byte container whose magics, format tag, channel count, bit depth
and sample-rate field are correct and whose data chunk describes zero
bytes, hence zero audio frames. -/
theorem C6_encoder_total_on_empty_input :
    (∀ (sr : ℤ) (audio : List ℚ), sr ≤ 0 → wav_bytes audio sr = wav_bytes audio 24000) ∧
    (∀ sr : ℤ, 0 < sr → sr < 4294967296 →
       (wav_bytes [] sr).length = 44 ∧
       bytesAt (wav_bytes [] sr) 0 4 = [82, 73, 70, 70] ∧
       leVal (bytesAt (wav_bytes [] sr) 4 4) = 36 ∧
       bytesAt (wav_bytes [] sr) 8 4 = [87, 65, 86, 69] ∧
       bytesAt (wav_bytes [] sr) 12 4 = [102, 109, 116, 32] ∧
       leVal (bytesAt (wav_bytes [] sr) 20 2) = 1 ∧
       leVal (bytesAt (wav_bytes [] sr) 22 2) = 1 ∧
       leVal (bytesAt (wav_bytes [] sr) 24 4) = sr.toNat ∧
       leVal (bytesAt (wav_bytes [] sr) 32 2) = 2 ∧
       leVal (bytesAt (wav_bytes [] sr) 34 2) = 16 ∧
       bytesAt (wav_bytes [] sr) 36 4 = [100, 97, 116, 97] ∧
       leVal (bytesAt (wav_bytes [] sr) 40 4) = 0) := by
  constructor
  · intro sr audio h
    simp only [wav_bytes]
    norm_num [h]
  · intro sr h1 h2
    have hns : ¬ sr ≤ 0 := not_le.mpr h1
    have hw : wav_bytes [] sr = wavHeader sr.toNat 0 := by
      simp [wav_bytes, hns]
    have hlt : sr.toNat < 4294967296 := by omega
    rw [hw]
    refine ⟨?_, ?_, ?_, ?_, ?_, ?_, ?_, ?_, ?_, ?_, ?_, ?_⟩ <;>
      (simp [wavHeader, u32le, u16le, bytesAt, leVal]; try omega)

/-- Witness for C6 at the sample rates -1 and 24000. -/
theorem C6_encoder_total_on_empty_input_witness :
    wav_bytes [] (-1) = wav_bytes [] 24000 ∧
    (wav_bytes [] 24000).length = 44 ∧
    leVal (bytesAt (wav_bytes [] 24000) 24 4) = (24000 : ℤ).toNat ∧
    leVal (bytesAt (wav_bytes [] 24000) 40 4) = 0 :=
  ⟨C6_encoder_total_on_empty_input.1 (-1) [] (by decide),
   (C6_encoder_total_on_empty_input.2 24000 (by decide) (by decide)).1,
   (C6_encoder_total_on_empty_input.2 24000 (by decide) (by decide)).2.2.2.2.2.2.2.1,
   (C6_encoder_total_on_empty_input.2 24000 (by decide) (by decide)).2.2.2.2.2.2.2.2.2.2.2⟩

end Kokoro
